import Mathlib

/-!
Verification development for the project-kit repository: a shallow embedding
of the descriptor model and schema migrator (`pkg/config`, file `project.go`),
the discovery walker (`FindProjects`), the staleness-bounded cache manager
(`pkg/cache/cache.go`) and the access tracker (`pkg/cache/access.go`),
together with theorems settling the stated properties of each component.

Machine integers do not occur on the verified paths; Go `time.Time` and
`time.Duration` values are modelled as natural numbers of nanoseconds,
Go `int` as `Int`, Go strings as `String`, Go slices as `List`, and Go maps
as lookup functions into `Option`.
-/

namespace Config

/-- The `[project]` section of a descriptor (anonymous struct in Go). -/
structure ProjectInfoT where
  Name : String := ""
  ID : String := ""
  Status : String := ""
  Type' : String := ""
  deriving Repr, DecidableEq

/-- The `[tech]` section. -/
structure TechT where
  Stack : List String := []
  Domain : List String := []
  deriving Repr, DecidableEq

/-- The `[dates]` section. -/
structure DatesT where
  Started : String := ""
  Completed : String := ""
  deriving Repr, DecidableEq

/-- The `[links]` section (core - generic links only); the last two fields
are legacy and migrate to the `datakai` section. -/
structure LinksT where
  Repository : String := ""
  Documentation : String := ""
  ScriptoriumProject : String := ""
  ConduitGraph : String := ""
  deriving Repr, DecidableEq

/-- The `[notes]` section. -/
structure NotesT where
  Description : String := ""
  deriving Repr, DecidableEq

/-- TmuxWindow represents a window configuration. -/
structure TmuxWindow where
  Name : String := ""
  Command : String := ""
  Path : String := ""
  deriving Repr, DecidableEq

/-- The `[tmux]` section (optional). -/
structure TmuxT where
  Layout : String := ""
  Windows : List TmuxWindow := []
  deriving Repr, DecidableEq

/-- The `[context]` section (optional). -/
structure ContextT where
  AWSProfile : String := ""
  AzureSubscription : String := ""
  GCloudProject : String := ""
  DatabricksProfile : String := ""
  SnowflakeAccount : String := ""
  GitIdentity : String := ""
  deriving Repr, DecidableEq

/-- The `[consultant]` extension section (optional). -/
structure ConsultantT where
  Ownership : String := ""
  ClientName : String := ""
  ClientType : String := ""
  Partner : String := ""
  MyRole : String := ""
  DeliverableType : String := ""
  LicenseModel : String := ""
  Billable : Bool := false
  RateType : String := ""
  deriving Repr, DecidableEq

/-- The `[datakai]` extension section (optional). -/
structure DataKaiT where
  Visibility : String := ""
  ScriptoriumProject : String := ""
  ConduitGraph : String := ""
  Protocols : List String := []
  DKOSVersion : String := ""
  ProductCategory : String := ""
  RevenueModel : String := ""
  Maturity : String := ""
  deriving Repr, DecidableEq

/-- The legacy `[ownership]` section (backward compatibility). -/
structure LegacyOwnershipT where
  Primary : String := ""
  Partners : List String := []
  LicenseModel : String := ""
  Visibility : String := ""
  deriving Repr, DecidableEq

/-- The legacy `[client]` section (backward compatibility). -/
structure LegacyClientT where
  EndClient : String := ""
  Intermediary : String := ""
  MyRole : String := ""
  deriving Repr, DecidableEq

/-- Project represents a `.project.toml` file (struct `Project` in Go). -/
structure Project where
  Path : String := ""
  ProjectInfo : ProjectInfoT := {}
  Tech : TechT := {}
  Dates : DatesT := {}
  Links : LinksT := {}
  Notes : NotesT := {}
  Tmux : TmuxT := {}
  Context : ContextT := {}
  Consultant : ConsultantT := {}
  DataKai : DataKaiT := {}
  LegacyOwnership : LegacyOwnershipT := {}
  LegacyClient : LegacyClientT := {}
  migrated : Bool := false
  deriving Repr, DecidableEq

/-- migrateSchema converts old schema format to new.  Direct translation of
the Go method `(*Project).migrateSchema`; the imperative in-place mutations
become a chain of functional record updates in source order. -/
def migrateSchema (p : Project) : Project :=
  let hasLegacyOwnership := p.LegacyOwnership.Primary != ""
  let hasLegacyClient := p.LegacyClient.EndClient != "" || p.LegacyClient.Intermediary != ""
  if !hasLegacyOwnership && !hasLegacyClient
      && p.Links.ScriptoriumProject == "" && p.Links.ConduitGraph == "" then
    p
  else
    let p1 := { p with migrated := true }
    -- Migrate [ownership] -> [consultant]
    let p2 :=
      if hasLegacyOwnership then
        let pa := { p1 with
          Consultant.Ownership := p1.LegacyOwnership.Primary,
          Consultant.LicenseModel := p1.LegacyOwnership.LicenseModel }
        -- Partners array -> single partner field (take first)
        let pb :=
          match pa.LegacyOwnership.Partners with
          | [] => pa
          | x :: _ => { pa with Consultant.Partner := x }
        -- CRITICAL: Migrate visibility from ownership to datakai
        if pb.LegacyOwnership.Visibility != "" then
          { pb with DataKai.Visibility := pb.LegacyOwnership.Visibility }
        else pb
      else p1
    -- Migrate [client] -> [consultant]
    let p3 :=
      if hasLegacyClient then
        let pc := { p2 with
          Consultant.ClientName := p2.LegacyClient.EndClient,
          Consultant.MyRole := p2.LegacyClient.MyRole }
        -- Intermediary -> partner + client_type
        if pc.LegacyClient.Intermediary != "" then
          { pc with
            Consultant.Partner := pc.LegacyClient.Intermediary,
            Consultant.ClientType := ("partner") }
        else if pc.LegacyClient.EndClient != "" then
          { pc with Consultant.ClientType := ("direct") }
        else pc
      else p2
    -- Migrate DataKai-specific links from [links] to [datakai]
    let p4 :=
      if p3.Links.ScriptoriumProject != "" then
        { p3 with
          DataKai.ScriptoriumProject := p3.Links.ScriptoriumProject,
          migrated := true }
      else p3
    if p4.Links.ConduitGraph != "" then
      { p4 with
        DataKai.ConduitGraph := p4.Links.ConduitGraph,
        migrated := true }
    else p4

/-- GetOwner returns the project owner (backward compatibility). -/
def Project.GetOwner (p : Project) : String :=
  if p.Consultant.Ownership != "" then p.Consultant.Ownership
  else p.LegacyOwnership.Primary

/-- GetLicenseModel returns license model (backward compatibility). -/
def Project.GetLicenseModel (p : Project) : String :=
  if p.Consultant.LicenseModel != "" then p.Consultant.LicenseModel
  else p.LegacyOwnership.LicenseModel

/-- GetClientName returns client name (backward compatibility). -/
def Project.GetClientName (p : Project) : String :=
  if p.Consultant.ClientName != "" then p.Consultant.ClientName
  else p.LegacyClient.EndClient

/-- GetPartner returns partner name (backward compatibility). -/
def Project.GetPartner (p : Project) : String :=
  if p.Consultant.Partner != "" then p.Consultant.Partner
  else if p.LegacyOwnership.Partners.length > 0 then p.LegacyOwnership.Partners.headI
  else p.LegacyClient.Intermediary

/-- GetMyRole returns user's role (backward compatibility). -/
def Project.GetMyRole (p : Project) : String :=
  if p.Consultant.MyRole != "" then p.Consultant.MyRole
  else p.LegacyClient.MyRole

/-- GetPartners returns partner list (backward compatibility). -/
def Project.GetPartners (p : Project) : List String :=
  if p.Consultant.Partner != "" then [p.Consultant.Partner]
  else p.LegacyOwnership.Partners

/-- LoadProject reads a `.project.toml` file: it sets `Path` to the directory
containing the file, decodes the TOML contents, and auto-migrates the legacy
schema.  The TOML decoder (`BurntSushi/toml`, external) is modelled by its
outcome `decoded`: either a decode error or the raw struct the file populates;
`dir` stands for `filepath.Dir(path)`. -/
def LoadProject (dir : String) (decoded : Except String Project) : Except String Project :=
  match decoded with
  | .error e => .error e
  | .ok proj => .ok (migrateSchema { proj with Path := dir })

/-- One entry handed to the `filepath.Walk` callback of `FindProjects`: either
a filesystem object visited without error (with its base name, directory, and
- when it is a descriptor file that gets decoded - the decode outcome), or a
walk-time I/O error (`err != nil` in the callback). -/
inductive WalkItem where
  | entry (dir : String) (name : String) (decoded : Except String Project)
  | ioError (e : String)
  deriving Repr

/-- One root directory passed to `FindProjects`: whether `os.Stat` reports it
existing, and the items the recursive walk visits in traversal order. -/
structure RootDir where
  dirExists : Bool
  items : List WalkItem
  deriving Repr

/-- The body of the `filepath.Walk` loop in `FindProjects`: processes the
walk items of one root in order, accumulating loaded projects; a callback
error aborts the walk of this root with that error (Go `filepath.Walk`
propagates the callback's non-nil return), while a `LoadProject` failure on a
descriptor file is skipped. -/
def walkRoot : List WalkItem → List Project → Except String (List Project)
  | [], projects => .ok projects
  | WalkItem.ioError e :: _, _ => .error e
  | WalkItem.entry dir name decoded :: rest, projects =>
    if name == ".project.toml" then
      match LoadProject dir decoded with
      | .error _ => walkRoot rest projects  -- Skip malformed files
      | .ok proj => walkRoot rest (projects ++ [proj])
    else walkRoot rest projects

/-- The root loop of `FindProjects`: nonexistent roots are skipped
(`os.IsNotExist` on the stat), a walk error makes the whole call return
`nil, err` (modelled `.error e`), and otherwise accumulation continues across
roots. -/
def findProjectsLoop : List RootDir → List Project → Except String (List Project)
  | [], projects => .ok projects
  | root :: rest, projects =>
    if !root.dirExists then findProjectsLoop rest projects
    else
      match walkRoot root.items projects with
      | .error e => .error e
      | .ok projects' => findProjectsLoop rest projects'

/-- FindProjects recursively finds all `.project.toml` files under the given
roots. -/
def FindProjects (rootDirs : List RootDir) : Except String (List Project) :=
  findProjectsLoop rootDirs []

end Config

namespace Cache

open Config

/-- Nanoseconds in one minute (Go `time.Minute`). -/
def Minute : Nat := 60 * 1000000000

/-- CacheMaxAge: refresh every 5 minutes. -/
def CacheMaxAge : Nat := 5 * Minute

/-- A file as seen by `os.Stat`/`os.ReadFile`: modification time (nanoseconds
since epoch) and raw contents. -/
structure FsFile where
  modTime : Nat
  data : String

/-- The environment the cache manager reads: the snapshot file at the path
`GetCacheFile` resolves (`none` when absent, i.e. `os.Stat` fails), the
current wall-clock time (`time.Now`, nanoseconds), and the outcome of
`json.Unmarshal` into `[]*config.Project` on given contents (JSON decoding is
external and modelled by this function). `GetCacheFile` is assumed to resolve;
its own failure paths (unresolvable home directory) also make `IsCacheValid`
false and `LoadFromCache` fail in the code. -/
structure CacheEnv where
  cacheFile : Option FsFile
  now : Nat
  decode : String → Except String (List Project)

/-- IsCacheValid checks if cache exists and is recent:
`time.Since(info.ModTime()) < CacheMaxAge`. -/
def IsCacheValid (env : CacheEnv) : Bool :=
  match env.cacheFile with
  | none => false
  | some f => env.now - f.modTime < CacheMaxAge

/-- LoadFromCache reads projects from cache: a read error when the file is
absent, otherwise the `json.Unmarshal` outcome. -/
def LoadFromCache (env : CacheEnv) : Except String (List Project) :=
  match env.cacheFile with
  | none => .error ("read failed")
  | some f => env.decode f.data

/-- FindProjectsCached returns projects from cache if valid, otherwise scans
and caches.  The background `SaveToCache` goroutine does not affect the value
returned to the caller and is not modelled. -/
def FindProjectsCached (env : CacheEnv) (rootDirs : List RootDir) : Except String (List Project) :=
  if IsCacheValid env then
    match LoadFromCache env with
    | .ok projects => .ok projects
    | .error _ => FindProjects rootDirs  -- Cache read failed, fall through to scan
  else FindProjects rootDirs

/-- AccessRecord tracks when a project was last accessed (`LastAccessed` in
nanoseconds since epoch). -/
structure AccessRecord where
  ProjectID : String := ""
  ProjectPath : String := ""
  LastAccessed : Nat := 0
  deriving Repr, DecidableEq

/-- The closure passed to `sort.Slice` in `GetRecentProjects`: projects never
accessed go to the end, otherwise most recent first (`time.Time.After`). -/
def recentLess (records : String → Option AccessRecord) (pi pj : Project) : Bool :=
  match records pi.ProjectInfo.ID, records pj.ProjectInfo.ID with
  | none, none => false
  | none, some _ => false
  | some _, none => true
  | some ai, some aj => aj.LastAccessed < ai.LastAccessed

/-- The non-strict order induced by the `sort.Slice` comparator: `a` may
come before `b` exactly when the comparator does not demand `b` before `a`. -/
def recentLE (records : String → Option AccessRecord) (a b : Project) : Prop :=
  recentLess records b a = false

instance recentLE.decRel (records : String → Option AccessRecord) :
    DecidableRel (recentLE records) :=
  fun a b => instDecidableEqBool (recentLess records b a) false

/-- GetRecentProjects returns projects sorted by access time (most recent
first), truncated to `limit` when `limit > 0 && limit < len(projects)`.
`records` models the map loaded by `LoadAccessRecords` and `projects` the
list obtained from `FindProjectsCached`; Go's `sort.Slice` (an unspecified
comparison sort whose output is a permutation of the input ordered by the
comparator) is modelled by insertion sort over the induced order of that
same comparator. -/
def GetRecentProjects (records : String → Option AccessRecord)
    (projects : List Project) (limit : Int) : List Project :=
  let sorted := List.insertionSort (recentLE records) projects
  if 0 < limit ∧ limit < (sorted.length : Int) then sorted.take limit.toNat else sorted

end Cache

namespace Config

/-- A closed-form description of `migrateSchema`, each output field written
directly as a function of the input's fields; proven equal to `migrateSchema`
in `migrateSchema_eq_mchar` below and used as proof infrastructure only. -/
def mchar (p : Project) : Project :=
  { p with
    migrated := if p.LegacyOwnership.Primary != "" || p.LegacyClient.EndClient != ""
        || p.LegacyClient.Intermediary != "" || p.Links.ScriptoriumProject != ""
        || p.Links.ConduitGraph != "" then true else p.migrated,
    Consultant := { p.Consultant with
      Ownership := if p.LegacyOwnership.Primary != "" then p.LegacyOwnership.Primary
        else p.Consultant.Ownership,
      LicenseModel := if p.LegacyOwnership.Primary != "" then p.LegacyOwnership.LicenseModel
        else p.Consultant.LicenseModel,
      Partner := if p.LegacyClient.Intermediary != "" then p.LegacyClient.Intermediary
        else if p.LegacyOwnership.Primary != "" && !p.LegacyOwnership.Partners.isEmpty then
          p.LegacyOwnership.Partners.headI
        else p.Consultant.Partner,
      ClientName := if p.LegacyClient.EndClient != "" || p.LegacyClient.Intermediary != "" then
          p.LegacyClient.EndClient
        else p.Consultant.ClientName,
      MyRole := if p.LegacyClient.EndClient != "" || p.LegacyClient.Intermediary != "" then
          p.LegacyClient.MyRole
        else p.Consultant.MyRole,
      ClientType := if p.LegacyClient.Intermediary != "" then ("partner")
        else if p.LegacyClient.EndClient != "" then ("direct")
        else p.Consultant.ClientType },
    DataKai := { p.DataKai with
      Visibility := if p.LegacyOwnership.Primary != "" && p.LegacyOwnership.Visibility != "" then
          p.LegacyOwnership.Visibility
        else p.DataKai.Visibility,
      ScriptoriumProject := if p.Links.ScriptoriumProject != "" then p.Links.ScriptoriumProject
        else p.DataKai.ScriptoriumProject,
      ConduitGraph := if p.Links.ConduitGraph != "" then p.Links.ConduitGraph
        else p.DataKai.ConduitGraph } }

/-- A walk over these items raises no callback error (no unreadable entries). -/
def errorFree : List WalkItem → Bool
  | [] => true
  | WalkItem.ioError _ :: _ => false
  | WalkItem.entry _ _ _ :: rest => errorFree rest

/-- The entities of the descriptor files among these walk items that load
successfully, in traversal order. -/
def validEntities : List WalkItem → List Project
  | [] => []
  | WalkItem.ioError _ :: rest => validEntities rest
  | WalkItem.entry dir name decoded :: rest =>
    if name == ".project.toml" then
      match LoadProject dir decoded with
      | .error _ => validEntities rest
      | .ok proj => proj :: validEntities rest
    else validEntities rest

/-- A descriptor carrying both new-schema values and disagreeing legacy
values for ownership, visibility and client name. -/
def bothRaw : Project :=
  { Consultant := { Ownership := "datakai", ClientName := "NewCo", LicenseModel := "proprietary" },
    DataKai := { Visibility := "public" },
    LegacyOwnership := { Primary := "client-co", Visibility := "private", Partners := ["wm"] },
    LegacyClient := { EndClient := "OldCo" } }

/-- A descriptor with a non-empty canonical license model, a legacy ownership
section whose primary owner is set but whose license-model field is empty. -/
def clobberRaw : Project :=
  { Consultant := { LicenseModel := "proprietary" },
    LegacyOwnership := { Primary := "acme" } }

/-- A descriptor whose legacy `[ownership]` section carries only a visibility
value (empty primary owner) and nothing else. -/
def visOnlyRaw : Project :=
  { LegacyOwnership := { Visibility := "private" } }

/-- The end-to-end example descriptor: only `project.id`, `ownership.primary`
and `ownership.visibility` are set. -/
def alphaRaw : Project :=
  { ProjectInfo := { ID := "alpha" },
    LegacyOwnership := { Primary := "acme", Visibility := "private" } }

/-- A valid sibling descriptor for the discovery example. -/
def validRawA : Project := { ProjectInfo := { ID := "proj-a" } }

/-- A second valid sibling descriptor for the discovery example. -/
def validRawB : Project := { ProjectInfo := { ID := "proj-b" } }

/-- A scanned root holding three sibling descriptors of which the middle one
has invalid TOML syntax. -/
def rootWithMalformed : RootDir :=
  { dirExists := true,
    items := [
      WalkItem.entry ("/roots/a") (".project.toml") (Except.ok validRawA),
      WalkItem.entry ("/roots/bad") (".project.toml") (Except.error ("toml: syntax")),
      WalkItem.entry ("/roots/b") (".project.toml") (Except.ok validRawB)] }

/-- A scanned root whose walk hits an unreadable subdirectory after one
descriptor was already discovered. -/
def rootWithWalkError : RootDir :=
  { dirExists := true,
    items := [
      WalkItem.entry ("/roots/a") (".project.toml") (Except.ok validRawA),
      WalkItem.ioError ("permission denied")] }

end Config

namespace Cache

open Config

/-- A cache environment with a fresh snapshot that deserializes to one
project. -/
def envFresh : CacheEnv :=
  { cacheFile := some { modTime := 1000, data := "snapshot" },
    now := 1000,
    decode := fun _ => Except.ok [validRawA] }

/-- A cache environment with a fresh snapshot whose contents fail to
deserialize. -/
def envCorrupt : CacheEnv :=
  { cacheFile := some { modTime := 1000, data := "garbage" },
    now := 1000,
    decode := fun _ => Except.error ("invalid character") }

/-- Three projects for the recency example. -/
def recProj1 : Project := { ProjectInfo := { ID := "p1" } }

/-- Second project for the recency example. -/
def recProj2 : Project := { ProjectInfo := { ID := "p2" } }

/-- Third project for the recency example. -/
def recProj3 : Project := { ProjectInfo := { ID := "p3" } }

/-- Access records with timestamps t1 < t2 < t3 for the three projects. -/
def recRecords : String → Option AccessRecord := fun id =>
  if id == "p1" then some { ProjectID := "p1", LastAccessed := 100 }
  else if id == "p2" then some { ProjectID := "p2", LastAccessed := 200 }
  else if id == "p3" then some { ProjectID := "p3", LastAccessed := 300 }
  else none

end Cache

namespace Cache

open Config

/-- The comparator-induced order is total, as `sort.Slice` requires. -/
instance recentLE.isTotal (records : String → Option AccessRecord) :
    IsTotal Project (recentLE records) := by
  constructor
  intro a b
  unfold recentLE recentLess
  cases records a.ProjectInfo.ID <;> cases records b.ProjectInfo.ID <;> simp <;> omega

/-- The comparator-induced order is transitive, as `sort.Slice` requires. -/
instance recentLE.isTrans (records : String → Option AccessRecord) :
    IsTrans Project (recentLE records) := by
  constructor
  intro a b c hab hbc
  unfold recentLE recentLess at *
  rcases ha : records a.ProjectInfo.ID with _ | ra <;>
  rcases hb : records b.ProjectInfo.ID with _ | rb <;>
  rcases hc : records c.ProjectInfo.ID with _ | rc <;>
  simp_all <;> omega

end Cache

namespace Config

set_option maxHeartbeats 2000000 in
/-- Every output field of `migrateSchema` equals the closed form `mchar`. -/
theorem migrateSchema_eq_mchar (p : Project) : migrateSchema p = mchar p := by
  by_cases h1 : p.LegacyOwnership.Primary = "" <;>
  by_cases h2 : p.LegacyClient.EndClient = "" <;>
  by_cases h3 : p.LegacyClient.Intermediary = "" <;>
  by_cases h4 : p.Links.ScriptoriumProject = "" <;>
  by_cases h5 : p.Links.ConduitGraph = "" <;>
  by_cases h6 : p.LegacyOwnership.Visibility = "" <;>
  cases hp : p.LegacyOwnership.Partners <;>
  simp [migrateSchema, mchar, h1, h2, h3, h4, h5, h6, hp]

set_option maxHeartbeats 2000000 in
/-- The closed form of the migrator is idempotent. -/
theorem mchar_idem (p : Project) : mchar (mchar p) = mchar p := by
  by_cases h1 : p.LegacyOwnership.Primary = "" <;>
  by_cases h2 : p.LegacyClient.EndClient = "" <;>
  by_cases h3 : p.LegacyClient.Intermediary = "" <;>
  by_cases h4 : p.Links.ScriptoriumProject = "" <;>
  by_cases h5 : p.Links.ConduitGraph = "" <;>
  by_cases h6 : p.LegacyOwnership.Visibility = "" <;>
  simp [mchar, h1, h2, h3, h4, h5, h6] <;>
  (intro h7 ; simp [h7])

/-- An error-free walk of one root appends exactly the successfully loaded
descriptor entities to the accumulator. -/
theorem walkRoot_ok (items : List WalkItem) :
    ∀ acc : List Project, errorFree items = true →
      walkRoot items acc = .ok (acc ++ validEntities items) := by
  induction items with
  | nil => intro acc _; simp [walkRoot, validEntities]
  | cons i rest ih =>
    intro acc h
    cases i with
    | ioError e => simp [errorFree] at h
    | entry dir name decoded =>
      have hrest : errorFree rest = true := by simpa [errorFree] using h
      by_cases hn : name == ".project.toml"
      · cases decoded with
        | error e => simp [walkRoot, validEntities, LoadProject, hn, ih _ hrest]
        | ok proj => simp [walkRoot, validEntities, LoadProject, hn, ih _ hrest]
      · simp [walkRoot, validEntities, hn, ih _ hrest]

/-- A walk that reaches an I/O error aborts with the first such error. -/
theorem walkRoot_err (e : String) (post : List WalkItem) (pre : List WalkItem) :
    ∀ acc : List Project, errorFree pre = true →
      walkRoot (pre ++ WalkItem.ioError e :: post) acc = .error e := by
  induction pre with
  | nil => intro acc _; simp [walkRoot]
  | cons i rest ih =>
    intro acc h
    cases i with
    | ioError e2 => simp [errorFree] at h
    | entry dir name decoded =>
      have hrest : errorFree rest = true := by simpa [errorFree] using h
      by_cases hn : name == ".project.toml"
      · cases decoded with
        | error e2 => simp [walkRoot, LoadProject, hn, ih _ hrest]
        | ok proj => simp [walkRoot, LoadProject, hn, ih _ hrest]
      · simp [walkRoot, hn, ih _ hrest]

/-- The root loop over existing, error-free roots collects all valid
entities in order. -/
theorem findProjectsLoop_ok (roots : List RootDir) :
    ∀ acc : List Project,
      (∀ r ∈ roots, r.dirExists = true → errorFree r.items = true) →
      findProjectsLoop roots acc =
        .ok (acc ++ ((roots.filter fun r => r.dirExists).map fun r => validEntities r.items).flatten) := by
  induction roots with
  | nil => intro acc _; simp [findProjectsLoop]
  | cons r rest ih =>
    intro acc h
    by_cases hr : r.dirExists
    · have hw := walkRoot_ok r.items acc (h r (by simp) hr)
      simp [findProjectsLoop, hr, hw, ih _ (fun r0 hr0 => h r0 (by simp [hr0]))]
    · simp [findProjectsLoop, hr, ih _ (fun r0 hr0 => h r0 (by simp [hr0]))]

end Config

open Config Cache

/-- Claim C1, counterexample: in the descriptor `bothRaw` the new-schema
fields (`[consultant].ownership = "datakai"`, `[datakai].visibility =
"public"`, `[consultant].client_name = "NewCo"`) and the corresponding legacy
fields (`[ownership].primary = "client-co"`, `[ownership].visibility =
"private"`, `[client].end_client = "OldCo"`) are all present and non-empty,
yet the normalized entity carries the legacy values, not the new-schema
values. -/
theorem migrate_new_schema_loses_cex :
    bothRaw.Consultant.Ownership = "datakai" ∧
    bothRaw.LegacyOwnership.Primary = "client-co" ∧
    (migrateSchema bothRaw).Consultant.Ownership ≠ "datakai" ∧
    (migrateSchema bothRaw).Consultant.Ownership = "client-co" ∧
    (migrateSchema bothRaw).DataKai.Visibility ≠ "public" ∧
    (migrateSchema bothRaw).DataKai.Visibility = "private" ∧
    (migrateSchema bothRaw).Consultant.ClientName ≠ "NewCo" ∧
    (migrateSchema bothRaw).Consultant.ClientName = "OldCo" := by
  decide

/-- Claim C1 (amended): whenever a legacy section's migration trigger fires,
the normalized entity produced by migrateSchema carries the LEGACY value for
every conflicting pair: `consultant.ownership` is overwritten by
`ownership.primary` whenever the latter is non-empty; `datakai.visibility` is
overwritten by a non-empty `ownership.visibility` whenever `ownership.primary`
is non-empty; and `consultant.client_name` is overwritten by a non-empty
`client.end_client` - i.e. resolution prefers the legacy value over the
new-schema value. -/
theorem migrate_prefers_legacy (p : Project) :
    (p.LegacyOwnership.Primary ≠ "" →
      (migrateSchema p).Consultant.Ownership = p.LegacyOwnership.Primary) ∧
    (p.LegacyOwnership.Primary ≠ "" → p.LegacyOwnership.Visibility ≠ "" →
      (migrateSchema p).DataKai.Visibility = p.LegacyOwnership.Visibility) ∧
    (p.LegacyClient.EndClient ≠ "" →
      (migrateSchema p).Consultant.ClientName = p.LegacyClient.EndClient) := by
  rw [migrateSchema_eq_mchar]
  refine ⟨fun h1 => ?_, fun h1 h2 => ?_, fun h3 => ?_⟩ <;> simp [mchar, *]

/-- Witness for C1's amended theorem at the concrete descriptor `bothRaw`. -/
theorem migrate_prefers_legacy_witness :
    (migrateSchema bothRaw).Consultant.Ownership = bothRaw.LegacyOwnership.Primary ∧
    (migrateSchema bothRaw).DataKai.Visibility = bothRaw.LegacyOwnership.Visibility ∧
    (migrateSchema bothRaw).Consultant.ClientName = bothRaw.LegacyClient.EndClient :=
  ⟨(migrate_prefers_legacy bothRaw).1 (by decide),
   (migrate_prefers_legacy bothRaw).2.1 (by decide) (by decide),
   (migrate_prefers_legacy bothRaw).2.2 (by decide)⟩

/-- Claim C2, counterexample: in `clobberRaw` the canonical field
`Consultant.LicenseModel` is non-empty ("proprietary") and the corresponding
legacy field `[ownership].license_model` is empty, yet migration overwrites
the canonical field with the empty legacy value, because the legacy ownership
section's trigger (`primary = "acme"`) fires. -/
theorem migrate_clobbers_canonical_cex :
    clobberRaw.Consultant.LicenseModel = "proprietary" ∧
    clobberRaw.LegacyOwnership.LicenseModel = "" ∧
    (migrateSchema clobberRaw).Consultant.LicenseModel ≠ "proprietary" ∧
    (migrateSchema clobberRaw).Consultant.LicenseModel = "" := by
  decide

/-- Claim C2 (amended): migration never touches a canonical field when the
corresponding legacy section's trigger fields are empty: with
`ownership.primary` empty, `Consultant.Ownership` and
`Consultant.LicenseModel` are unchanged; with `client.end_client` and
`client.intermediary` both empty, `Consultant.ClientName` and
`Consultant.MyRole` are unchanged.  (When a trigger is non-empty, canonical
fields of that section are overwritten even by empty legacy values.) -/
theorem migrate_preserves_canonical_without_trigger (p : Project) :
    (p.LegacyOwnership.Primary = "" →
      (migrateSchema p).Consultant.Ownership = p.Consultant.Ownership ∧
      (migrateSchema p).Consultant.LicenseModel = p.Consultant.LicenseModel) ∧
    (p.LegacyClient.EndClient = "" → p.LegacyClient.Intermediary = "" →
      (migrateSchema p).Consultant.ClientName = p.Consultant.ClientName ∧
      (migrateSchema p).Consultant.MyRole = p.Consultant.MyRole) := by
  rw [migrateSchema_eq_mchar]
  refine ⟨fun h1 => ?_, fun h2 h3 => ?_⟩ <;> simp [mchar, *]

/-- Witness for C2's amended theorem at the concrete descriptor `visOnlyRaw`
(empty legacy triggers). -/
theorem migrate_preserves_canonical_without_trigger_witness :
    ((migrateSchema visOnlyRaw).Consultant.Ownership = visOnlyRaw.Consultant.Ownership ∧
     (migrateSchema visOnlyRaw).Consultant.LicenseModel = visOnlyRaw.Consultant.LicenseModel) ∧
    ((migrateSchema visOnlyRaw).Consultant.ClientName = visOnlyRaw.Consultant.ClientName ∧
     (migrateSchema visOnlyRaw).Consultant.MyRole = visOnlyRaw.Consultant.MyRole) :=
  ⟨(migrate_preserves_canonical_without_trigger visOnlyRaw).1 (by decide),
   (migrate_preserves_canonical_without_trigger visOnlyRaw).2 (by decide) (by decide)⟩

/-- Claim C3, counterexample: for the loaded (migrated) entity of `bothRaw`,
where both new-schema ownership ("datakai") and legacy ownership
("client-co") are present in the descriptor, `GetOwner()` returns the legacy
value, not the new-schema value. -/
theorem getOwner_new_wins_cex :
    bothRaw.Consultant.Ownership = "datakai" ∧
    bothRaw.LegacyOwnership.Primary = "client-co" ∧
    (migrateSchema bothRaw).GetOwner ≠ "datakai" ∧
    (migrateSchema bothRaw).GetOwner = "client-co" := by
  decide

/-- Claim C3 (amended): on a loaded entity, `GetOwner()` returns the legacy
`ownership.primary` whenever legacy ownership is present in the descriptor
(even when new-schema ownership is also present - legacy wins); when legacy
ownership is absent it returns the descriptor's `consultant.ownership`, which
is the empty string when neither is present. -/
theorem getOwner_fallback_resolution (p : Project) :
    (p.LegacyOwnership.Primary ≠ "" →
      (migrateSchema p).GetOwner = p.LegacyOwnership.Primary) ∧
    (p.LegacyOwnership.Primary = "" →
      (migrateSchema p).GetOwner = p.Consultant.Ownership) := by
  rw [migrateSchema_eq_mchar]
  constructor <;> intro h1
  · simp [mchar, Project.GetOwner, h1]
  · simp [mchar, Project.GetOwner, h1]
    intro h2
    exact h2.symm

/-- Witness for C3's amended theorem at `bothRaw` (legacy present) and
`visOnlyRaw` (legacy absent). -/
theorem getOwner_fallback_resolution_witness :
    (migrateSchema bothRaw).GetOwner = bothRaw.LegacyOwnership.Primary ∧
    (migrateSchema visOnlyRaw).GetOwner = visOnlyRaw.Consultant.Ownership :=
  ⟨(getOwner_fallback_resolution bothRaw).1 (by decide),
   (getOwner_fallback_resolution visOnlyRaw).2 (by decide)⟩

/-- Claim C4, counterexample: the descriptor `visOnlyRaw` has a non-empty
legacy `[ownership].visibility` ("private") but an empty
`[ownership].primary`; migration then never relocates the visibility value,
so the normalized entity's `DataKai.Visibility` stays empty. -/
theorem legacy_visibility_not_migrated_cex :
    visOnlyRaw.LegacyOwnership.Visibility = "private" ∧
    (migrateSchema visOnlyRaw).DataKai.Visibility ≠ "private" ∧
    (migrateSchema visOnlyRaw).DataKai.Visibility = "" := by
  decide

/-- Claim C4 (amended): for every descriptor whose legacy `[ownership]`
section has a non-empty `primary` AND a non-empty `visibility`, the
normalized entity's `DataKai.Visibility` equals that legacy value (with
`primary` empty the visibility branch never runs); and the concrete example
holds: loading a descriptor with only `project.id="alpha"`,
`ownership.primary="acme"`, `ownership.visibility="private"` yields
`Consultant.Ownership = "acme"`, `DataKai.Visibility = "private"` and
`Links.ScriptoriumProject = ""`. -/
theorem legacy_visibility_migration :
    (∀ p : Project, p.LegacyOwnership.Primary ≠ "" → p.LegacyOwnership.Visibility ≠ "" →
      (migrateSchema p).DataKai.Visibility = p.LegacyOwnership.Visibility) ∧
    (LoadProject ("/roots/alpha") (Except.ok alphaRaw)).toOption.map
        (fun e => (e.Consultant.Ownership, e.DataKai.Visibility, e.Links.ScriptoriumProject))
      = some ("acme", "private", "") := by
  constructor
  · intro p h1 h2
    rw [migrateSchema_eq_mchar]
    simp [mchar, h1, h2]
  · decide

/-- Witness for C4's amended theorem at the concrete alpha descriptor. -/
theorem legacy_visibility_migration_witness :
    (migrateSchema alphaRaw).DataKai.Visibility = alphaRaw.LegacyOwnership.Visibility :=
  legacy_visibility_migration.1 alphaRaw (by decide) (by decide)

/-- Claim C5: migration is idempotent - running migrateSchema a second time
on an already-migrated entity yields the same normalized entity. -/
theorem migrateSchema_idempotent (p : Project) :
    migrateSchema (migrateSchema p) = migrateSchema p := by
  rw [migrateSchema_eq_mchar p, migrateSchema_eq_mchar (mchar p), mchar_idem]

/-- On error-free walks, an I/O error in a final root aborts the whole scan
with that error, regardless of what earlier roots contributed. -/
theorem findProjectsLoop_err (bad : RootDir) (e : String) (pre post : List WalkItem)
    (hb : bad.dirExists = true) (hbi : bad.items = pre ++ WalkItem.ioError e :: post)
    (hpre : errorFree pre = true) :
    ∀ (roots : List RootDir) (acc : List Project),
      (∀ r ∈ roots, r.dirExists = true → errorFree r.items = true) →
      findProjectsLoop (roots ++ [bad]) acc = .error e := by
  intro roots
  induction roots with
  | nil =>
    intro acc _
    simp [findProjectsLoop, hb, hbi, walkRoot_err e post pre acc hpre]
  | cons r rest ih =>
    intro acc h
    by_cases hr : r.dirExists
    · have hw := walkRoot_ok r.items acc (h r (by simp) hr)
      simp only [List.cons_append, findProjectsLoop, hr, hw]
      simpa using ih _ (fun r0 hr0 => h r0 (by simp [hr0]))
    · simp only [List.cons_append, findProjectsLoop, hr]
      simpa [hr] using ih _ (fun r0 hr0 => h r0 (by simp [hr0]))

/-- Claim C6: when every existing root's walk raises no I/O error,
FindProjects returns exactly the entities of the descriptors that load
successfully - one entity per valid descriptor, in traversal order - and
returns no error: a parse failure on one file never aborts the scan. -/
theorem findProjects_skips_malformed (roots : List RootDir)
    (h : ∀ r ∈ roots, r.dirExists = true → errorFree r.items = true) :
    FindProjects roots =
      .ok (((roots.filter fun r => r.dirExists).map fun r => validEntities r.items).flatten) := by
  simpa [FindProjects] using findProjectsLoop_ok roots [] h

/-- Witness for C6 on a scan of one root holding three sibling descriptors of
which one is malformed: the scan succeeds and yields exactly the 2 entities
of the valid descriptors. -/
theorem findProjects_skips_malformed_witness :
    FindProjects [rootWithMalformed] =
      .ok ((([rootWithMalformed].filter fun r => r.dirExists).map
        fun r => validEntities r.items).flatten) ∧
    ((([rootWithMalformed].filter fun r => r.dirExists).map
        fun r => validEntities r.items).flatten).length = 2 :=
  ⟨findProjects_skips_malformed [rootWithMalformed]
      (by intro r hr hex; simp only [List.mem_singleton] at hr; subst hr; rfl),
   by decide⟩

/-- Claim C10: if, during the walk of an existing root, an entry reports an
I/O error, FindProjects aborts the entire scan and returns that error with no
project list, discarding every entity already discovered in that root (the
error-free prefix `pre`) and in all previously scanned roots. -/
theorem findProjects_aborts_on_walk_error (roots : List RootDir) (bad : RootDir)
    (e : String) (pre post : List WalkItem)
    (hroots : ∀ r ∈ roots, r.dirExists = true → errorFree r.items = true)
    (hb : bad.dirExists = true) (hbi : bad.items = pre ++ WalkItem.ioError e :: post)
    (hpre : errorFree pre = true) :
    FindProjects (roots ++ [bad]) = .error e := by
  simpa [FindProjects] using findProjectsLoop_err bad e pre post hb hbi hpre roots [] hroots

/-- Witness for C10: a scan over a healthy root followed by a root whose walk
hits an unreadable entry after one descriptor was already discovered returns
the I/O error and no entities. -/
theorem findProjects_aborts_on_walk_error_witness :
    FindProjects ([rootWithMalformed] ++ [rootWithWalkError]) =
      .error ("permission denied") :=
  findProjects_aborts_on_walk_error [rootWithMalformed] rootWithWalkError
    ("permission denied")
    [WalkItem.entry ("/roots/a") (".project.toml") (Except.ok validRawA)] []
    (by intro r hr hex; simp only [List.mem_singleton] at hr; subst hr; rfl)
    (by rfl) (by rfl) (by rfl)

/-- Claim C7: on the cache read path, a valid snapshot that deserializes
successfully is returned as-is; an invalid/absent snapshot, or one that fails
to deserialize, makes FindProjectsCached return the result of a live scan
over the given roots, and a deserialization failure is never surfaced as an
error to the caller. -/
theorem findProjectsCached_read_path (env : CacheEnv) (roots : List RootDir) :
    (∀ l, IsCacheValid env = true → LoadFromCache env = .ok l →
      FindProjectsCached env roots = .ok l) ∧
    (IsCacheValid env = false → FindProjectsCached env roots = FindProjects roots) ∧
    (∀ e, LoadFromCache env = .error e → FindProjectsCached env roots = FindProjects roots) := by
  refine ⟨fun l hv hl => ?_, fun hv => ?_, fun e hl => ?_⟩
  · simp [FindProjectsCached, hv, hl]
  · simp [FindProjectsCached, hv]
  · by_cases hv : IsCacheValid env = true
    · simp [FindProjectsCached, hv, hl]
    · simp [FindProjectsCached, hv]

/-- Witness for C7: a fresh snapshot deserializing to one project is served
from cache; a fresh but corrupt snapshot falls back to the live scan. -/
theorem findProjectsCached_read_path_witness :
    FindProjectsCached envFresh [] = .ok [validRawA] ∧
    FindProjectsCached envCorrupt [] = FindProjects [] :=
  ⟨(findProjectsCached_read_path envFresh []).1 [validRawA] (by rfl) (by rfl),
   (findProjectsCached_read_path envCorrupt []).2.2 ("invalid character") (by rfl)⟩

/-- Claim C8: IsCacheValid returns true if and only if the snapshot file
exists and the elapsed time since its modification time is strictly below the
fixed 5-minute threshold; immediately after a save the age is 0 (true), and
once the age reaches or passes 5 minutes it is false. -/
theorem isCacheValid_iff (env : CacheEnv) :
    IsCacheValid env = true ↔
      ∃ f, env.cacheFile = some f ∧ env.now - f.modTime < CacheMaxAge := by
  unfold IsCacheValid
  cases hf : env.cacheFile with
  | none => simp
  | some f => simp [hf]

/-- Claim C9: GetRecentProjects returns a permutation of the discovered
projects ordered descending by last-accessed time with never-accessed
projects after all accessed ones, truncated to the first `limit` elements
exactly when `limit` is positive and smaller than the list length; and on the
concrete example of three projects accessed at t1 < t2 < t3,
`GetRecentProjects 2` returns exactly the t3-project then the t2-project. -/
theorem getRecentProjects_sorted_truncated
    (records : String → Option AccessRecord) (projects : List Project) (limit : Int) :
    (∃ s : List Project,
      s.Perm projects ∧
      s.Pairwise (fun a b =>
        match records a.ProjectInfo.ID, records b.ProjectInfo.ID with
        | some ra, some rb => rb.LastAccessed ≤ ra.LastAccessed
        | some _, none => True
        | none, some _ => False
        | none, none => True) ∧
      GetRecentProjects records projects limit =
        (if 0 < limit ∧ limit < (s.length : Int) then s.take limit.toNat else s)) ∧
    GetRecentProjects recRecords [recProj1, recProj2, recProj3] 2 =
      [recProj3, recProj2] := by
  constructor
  · refine ⟨List.insertionSort (recentLE records) projects,
      List.perm_insertionSort _ _, ?_, rfl⟩
    have hs := List.sorted_insertionSort (recentLE records) projects
    refine hs.imp ?_
    intro a b hab
    unfold recentLE recentLess at hab
    rcases ha : records a.ProjectInfo.ID with _ | ra <;>
    rcases hb2 : records b.ProjectInfo.ID with _ | rb <;> simp_all
  · decide
